import Mathlib

/-!
Shallow embedding of the Monte Carlo buy-vs-rent engine (`montecarlo.py`)
of the `own_vs_buy` repository.

Python floats are modelled by exact rationals (`ℚ`); Python `int(x)`
truncation is `pyInt`; the global `random` module is modelled by an
explicit entropy stream threaded through the sampler (`Gen`); Python
dictionaries holding the sampled parameter values are modelled as total
maps `String → ℚ` (every evaluator read is of a key the trial runner
always assigns).
-/

namespace OwnVsBuy

/-- Python `int(x)` applied to a float: truncation toward zero.
On `ℚ`, `Int.tdiv` (T-division) of the numerator by the denominator
truncates toward zero, matching Python. -/
def pyInt (q : ℚ) : ℤ := q.num.tdiv (q.den : ℤ)

/-- The entropy source: models the state of Python's global `random`
generator as the stream of draws it will produce. -/
structure Gen where
  stream : List ℚ
deriving DecidableEq

/-- Pop one draw from the entropy stream (0 if exhausted). -/
def Gen.next (g : Gen) : ℚ × Gen := (g.stream.headD 0, ⟨g.stream.tail⟩)

/-- Modelled from the spec: `random.gauss(mean, stdev)` is a library
primitive not part of this repository; it is modelled as a deterministic
function of its parameters and one entropy draw. -/
def gaussDraw (mean stdev z : ℚ) : ℚ := mean + stdev * z

/-- Modelled from the spec: `random.lognormvariate(mean, stdev)` is a
library primitive not part of this repository; it is modelled as a
deterministic (nonnegative-valued) function of its parameters and one
entropy draw. -/
def lognormDraw (mean stdev z : ℚ) : ℚ := (mean + stdev * z) * (mean + stdev * z)

/-- Modelled from the spec: `random.triangular(minimum, maximum, mode)` is
a library primitive not part of this repository; it is modelled as a
deterministic function of its parameters and one entropy draw. -/
def triangularDraw (minimum maximum mode u : ℚ) : ℚ :=
  minimum + (maximum - minimum) * u + 0 * mode

/-- Function `sample_distribution` (montecarlo.py lines 27-50): returns one value
from the selected distribution; each recognized branch consumes one draw
from the entropy source, the fallback returns `mean` unchanged. -/
def sample_distribution (dist_type : String) (mean stdev minimum maximum mode : ℚ)
    (g : Gen) : ℚ × Gen :=
  if dist_type = "normal" then
    let (z, g1) := g.next
    (gaussDraw mean stdev z, g1)
  else if dist_type = "lognormal" then
    let (z, g1) := g.next
    (lognormDraw mean stdev z, g1)
  else if dist_type = "triangular" then
    let (u, g1) := g.next
    (triangularDraw minimum maximum mode u, g1)
  else
    (mean, g)

/-- A resolved Parameter Set (the `vals` dictionary handed to the
scenario evaluators). -/
def PDict := String → ℚ

/-- Python dictionary read `d[k]`: yields the value and leaves the
dictionary state unchanged. -/
def dget (d : PDict) (k : String) : ℚ × PDict := (d k, d)

/-- Monthly mortgage payment (montecarlo.py lines 110-118): the standard
annuity formula when `mortgage_principal > 0 and monthly_interest_rate > 0`,
otherwise `0.0`. -/
def mortgagePayment (mortgage_principal monthly_interest_rate : ℚ)
    (mortgage_term_months : ℤ) : ℚ :=
  if 0 < mortgage_principal ∧ 0 < monthly_interest_rate then
    mortgage_principal
      * (monthly_interest_rate * (1 + monthly_interest_rate) ^ mortgage_term_months)
      / ((1 + monthly_interest_rate) ^ mortgage_term_months - 1)
  else 0

/-- The per-month loop constants of `calculate_own_scenario`. -/
structure OwnConsts where
  inflation_rate : ℚ
  marginal_tax_rate : ℚ
  home_appreciation_rate : ℚ
  property_tax_rate : ℚ
  maintenance_rate : ℚ
  investment_return_annual : ℚ
  monthly_interest_rate : ℚ
  mortgage_payment : ℚ
  mortgage_term_months : ℤ
deriving DecidableEq

/-- The mutable per-month state of `calculate_own_scenario`'s loop. -/
structure OwnState where
  annual_income : ℚ
  monthly_income : ℚ
  house_value : ℚ
  mortgage_balance : ℚ
  liquid_investments : ℚ
  monthly_travel : ℚ
  monthly_groceries : ℚ
  monthly_bills : ℚ
  monthly_healthcare : ℚ
  monthly_insurance : ℚ
deriving DecidableEq

/-- One iteration of the monthly loop of `calculate_own_scenario`
(montecarlo.py lines 143-206), for month index `m`. -/
def stepOwn (c : OwnConsts) (m : ℕ) (s : OwnState) : OwnState :=
  let s :=
    if 0 < m ∧ m % 12 = 0 then
      let annual_income := s.annual_income * (1 + c.inflation_rate)
      { s with
        annual_income := annual_income
        monthly_income := annual_income * (1 - c.marginal_tax_rate) / 12
        house_value := s.house_value * (1 + c.home_appreciation_rate)
        monthly_travel := s.monthly_travel * (1 + c.inflation_rate)
        monthly_groceries := s.monthly_groceries * (1 + c.inflation_rate)
        monthly_bills := s.monthly_bills * (1 + c.inflation_rate)
        monthly_healthcare := s.monthly_healthcare * (1 + c.inflation_rate)
        monthly_insurance := s.monthly_insurance * (1 + c.inflation_rate) }
    else s
  let pay :=
    if (m : ℤ) < c.mortgage_term_months ∧ 0 < s.mortgage_balance then
      let interest_portion := s.mortgage_balance * c.monthly_interest_rate
      let principal_portion := c.mortgage_payment - interest_portion
      let principal_portion :=
        if principal_portion > s.mortgage_balance then s.mortgage_balance
        else principal_portion
      (interest_portion + principal_portion, s.mortgage_balance - principal_portion)
    else (0, s.mortgage_balance)
  let actual_mortgage_payment := pay.1
  let monthly_property_tax := s.house_value * c.property_tax_rate / 12
  let monthly_maintenance := s.house_value * c.maintenance_rate / 12
  let monthly_homeowner_costs :=
    actual_mortgage_payment + monthly_property_tax + s.monthly_insurance
      + monthly_maintenance
  let monthly_living_expenses :=
    s.monthly_travel + s.monthly_groceries + s.monthly_bills + s.monthly_healthcare
  let total_monthly_spending := monthly_homeowner_costs + monthly_living_expenses
  let leftover := s.monthly_income - total_monthly_spending
  let liquid_investments :=
    if leftover > 0 then s.liquid_investments + leftover else s.liquid_investments
  let monthly_invest_return := c.investment_return_annual / 12
  let liquid_investments := liquid_investments * (1 + monthly_invest_return)
  { s with mortgage_balance := pay.2, liquid_investments := liquid_investments }

/-- Function `calculate_own_scenario` (montecarlo.py lines 53-221), in dictionary
state-passing form: every `vals[...]` read is a `dget`, the threaded
dictionary is returned alongside the final net worth. -/
def calculate_own_scenarioS (vals : PDict) : ℚ × PDict :=
  let (annual_income, vals) := dget vals "annual_income"
  let (mr0, vals) := dget vals "mortgage_rate"
  let mortgage_rate_annual := mr0 / 100
  let (pt0, vals) := dget vals "property_tax_rate"
  let property_tax_rate := pt0 / 100
  let (mn0, vals) := dget vals "maintenance_rate"
  let maintenance_rate := mn0 / 100
  let (ha0, vals) := dget vals "home_appreciation"
  let home_appreciation_rate := ha0 / 100
  let (iv0, vals) := dget vals "investment_return"
  let investment_return_annual := iv0 / 100
  let (mt0, vals) := dget vals "marginal_tax_rate"
  let marginal_tax_rate := mt0 / 100
  let (in0, vals) := dget vals "inflation_rate"
  let inflation_rate := in0 / 100
  let monthly_income := annual_income * (1 - marginal_tax_rate) / 12
  let (end_age, vals) := dget vals "end_age"
  let (start_age, vals) := dget vals "start_age"
  let months := pyInt ((end_age - start_age) * 12)
  if months < 1 then (0, vals) else
  let (house_value, vals) := dget vals "home_price"
  let (down_payment, vals) := dget vals "down_payment"
  let mortgage_principal := house_value - down_payment
  let mortgage_principal := if mortgage_principal < 0 then 0 else mortgage_principal
  let (mterm, vals) := dget vals "mortgage_term"
  let mortgage_term_months := pyInt (mterm * 12)
  let monthly_interest_rate := mortgage_rate_annual / 12
  let mortgage_payment :=
    mortgagePayment mortgage_principal monthly_interest_rate mortgage_term_months
  let mortgage_balance := mortgage_principal
  let net_worth := -down_payment
  let (hi0, vals) := dget vals "homeowner_insurance"
  let monthly_insurance := hi0 / 12
  let (monthly_travel, vals) := dget vals "monthly_travel"
  let (monthly_groceries, vals) := dget vals "monthly_groceries"
  let (monthly_bills, vals) := dget vals "monthly_bills"
  let (monthly_healthcare, vals) := dget vals "monthly_healthcare"
  let c : OwnConsts :=
    { inflation_rate, marginal_tax_rate, home_appreciation_rate, property_tax_rate,
      maintenance_rate, investment_return_annual, monthly_interest_rate,
      mortgage_payment, mortgage_term_months }
  let s0 : OwnState :=
    { annual_income, monthly_income, house_value, mortgage_balance,
      liquid_investments := 0, monthly_travel, monthly_groceries, monthly_bills,
      monthly_healthcare, monthly_insurance }
  let sF := (List.range months.toNat).foldl (fun s m => stepOwn c m s) s0
  (net_worth + (sF.house_value - sF.mortgage_balance) + sF.liquid_investments, vals)

/-- Final net worth of the own (buy) scenario. -/
def calculate_own_scenario (vals : PDict) : ℚ := (calculate_own_scenarioS vals).1

/-- The per-month loop constants of `calculate_rent_scenario`. -/
structure RentConsts where
  rent_escalation_rate : ℚ
  inflation_rate : ℚ
  marginal_tax_rate : ℚ
  investment_return_annual : ℚ
deriving DecidableEq

/-- The mutable per-month state of `calculate_rent_scenario`'s loop. -/
structure RentState where
  annual_income : ℚ
  monthly_income : ℚ
  current_rent : ℚ
  liquid_investments : ℚ
  monthly_travel : ℚ
  monthly_groceries : ℚ
  monthly_bills : ℚ
  monthly_healthcare : ℚ
deriving DecidableEq

/-- One iteration of the monthly loop of `calculate_rent_scenario`
(montecarlo.py lines 254-285), for month index `m`. -/
def stepRent (c : RentConsts) (m : ℕ) (s : RentState) : RentState :=
  let s :=
    if 0 < m ∧ m % 12 = 0 then
      let annual_income := s.annual_income * (1 + c.inflation_rate)
      { s with
        current_rent := s.current_rent * (1 + c.rent_escalation_rate)
        annual_income := annual_income
        monthly_income := annual_income * (1 - c.marginal_tax_rate) / 12
        monthly_travel := s.monthly_travel * (1 + c.inflation_rate)
        monthly_groceries := s.monthly_groceries * (1 + c.inflation_rate)
        monthly_bills := s.monthly_bills * (1 + c.inflation_rate)
        monthly_healthcare := s.monthly_healthcare * (1 + c.inflation_rate) }
    else s
  let monthly_living_expenses :=
    s.current_rent + s.monthly_travel + s.monthly_groceries + s.monthly_bills
      + s.monthly_healthcare
  let leftover := s.monthly_income - monthly_living_expenses
  let liquid_investments :=
    if leftover > 0 then s.liquid_investments + leftover else s.liquid_investments
  let monthly_invest_return := c.investment_return_annual / 12
  let liquid_investments := liquid_investments * (1 + monthly_invest_return)
  { s with liquid_investments := liquid_investments }

/-- Function `calculate_rent_scenario` (montecarlo.py lines 224-290), in dictionary
state-passing form. -/
def calculate_rent_scenarioS (vals : PDict) : ℚ × PDict :=
  let (annual_income, vals) := dget vals "annual_income"
  let (rent, vals) := dget vals "rent"
  let (re0, vals) := dget vals "rent_escalation_rate"
  let rent_escalation_rate := re0 / 100
  let (iv0, vals) := dget vals "investment_return"
  let investment_return_annual := iv0 / 100
  let (mt0, vals) := dget vals "marginal_tax_rate"
  let marginal_tax_rate := mt0 / 100
  let (in0, vals) := dget vals "inflation_rate"
  let inflation_rate := in0 / 100
  let (end_age, vals) := dget vals "end_age"
  let (start_age, vals) := dget vals "start_age"
  let months := pyInt ((end_age - start_age) * 12)
  if months < 1 then (0, vals) else
  let monthly_income := annual_income * (1 - marginal_tax_rate) / 12
  let (monthly_travel, vals) := dget vals "monthly_travel"
  let (monthly_groceries, vals) := dget vals "monthly_groceries"
  let (monthly_bills, vals) := dget vals "monthly_bills"
  let (monthly_healthcare, vals) := dget vals "monthly_healthcare"
  let current_rent := rent
  let c : RentConsts :=
    { rent_escalation_rate, inflation_rate, marginal_tax_rate,
      investment_return_annual }
  let s0 : RentState :=
    { annual_income, monthly_income, current_rent, liquid_investments := 0,
      monthly_travel, monthly_groceries, monthly_bills, monthly_healthcare }
  let sF := (List.range months.toNat).foldl (fun s m => stepRent c m s) s0
  (sF.liquid_investments, vals)

/-- Final net worth of the rent scenario. -/
def calculate_rent_scenario (vals : PDict) : ℚ := (calculate_rent_scenarioS vals).1

/-- Named projection: the horizon in months (`int((end_age - start_age) * 12)`,
montecarlo.py line 97 and line 238). -/
def ownMonths (vals : PDict) : ℤ := pyInt ((vals "end_age" - vals "start_age") * 12)

/-- Named projection: the mortgage principal `max(home_price - down_payment, 0)`
(montecarlo.py lines 103-105). -/
def ownPrincipal (vals : PDict) : ℚ :=
  let p := vals "home_price" - vals "down_payment"
  if p < 0 then 0 else p

/-- Named projection: the monthly mortgage interest rate
(montecarlo.py lines 87 and 108). -/
def ownMonthlyRate (vals : PDict) : ℚ := vals "mortgage_rate" / 100 / 12

/-- Named projection: the number of scheduled mortgage payments
`int(mortgage_term * 12)` (montecarlo.py line 107). -/
def ownTermMonths (vals : PDict) : ℤ := pyInt (vals "mortgage_term" * 12)

/-- Named projection: the monthly mortgage payment used by the simulation
(montecarlo.py lines 110-118). -/
def ownPayment (vals : PDict) : ℚ :=
  mortgagePayment (ownPrincipal vals) (ownMonthlyRate vals) (ownTermMonths vals)

/-- Named projection: the loop constants `calculate_own_scenario` builds
from `vals`. -/
def ownConsts (vals : PDict) : OwnConsts :=
  { inflation_rate := vals "inflation_rate" / 100
    marginal_tax_rate := vals "marginal_tax_rate" / 100
    home_appreciation_rate := vals "home_appreciation" / 100
    property_tax_rate := vals "property_tax_rate" / 100
    maintenance_rate := vals "maintenance_rate" / 100
    investment_return_annual := vals "investment_return" / 100
    monthly_interest_rate := ownMonthlyRate vals
    mortgage_payment := ownPayment vals
    mortgage_term_months := ownTermMonths vals }

/-- Named projection: the initial loop state of `calculate_own_scenario`. -/
def ownInit (vals : PDict) : OwnState :=
  { annual_income := vals "annual_income"
    monthly_income := vals "annual_income" * (1 - vals "marginal_tax_rate" / 100) / 12
    house_value := vals "home_price"
    mortgage_balance := ownPrincipal vals
    liquid_investments := 0
    monthly_travel := vals "monthly_travel"
    monthly_groceries := vals "monthly_groceries"
    monthly_bills := vals "monthly_bills"
    monthly_healthcare := vals "monthly_healthcare"
    monthly_insurance := vals "homeowner_insurance" / 12 }

/-- The mortgage balance held by `calculate_own_scenario`'s loop state
after `k` iterations of the monthly loop. -/
def ownBalance (vals : PDict) (k : ℕ) : ℚ :=
  ((List.range k).foldl (fun s m => stepOwn (ownConsts vals) m s)
    (ownInit vals)).mortgage_balance

/-- A Distribution Spec entry of `dist_params` (a Python dict; fields the
source reads with `.get` and a default are `Option`s). -/
structure DistSpec where
  dist_type : Option String
  mean : Option ℚ
  stdev : Option ℚ
  min : Option ℚ
  max : Option ℚ
  mode : Option ℚ
deriving DecidableEq

/-- The `dist_params` mapping: key present iff the value is `some`. -/
def DParams := String → Option DistSpec

/-- The sampling call of `run_single_simulation` (montecarlo.py lines
335-342), with the source's `.get` defaults applied. -/
def sampleOne (d : DistSpec) (g : Gen) : ℚ × Gen :=
  sample_distribution (d.dist_type.getD "normal") (d.mean.getD 0) (d.stdev.getD 0)
    (d.min.getD 0) (d.max.getD 0) (d.mode.getD 0) g

/-- The per-variable branch of `run_single_simulation`'s loop (montecarlo.py
lines 332-346): sample if the `_dist` key is present, else fall back to 0.0. -/
def sampleVal (dp : DParams) (dist_key : String) (g : Gen) : ℚ × Gen :=
  match dp dist_key with
  | some d => sampleOne d g
  | none => (0, g)

/-- Function `variable_keys` (montecarlo.py lines 307-328): the fixed enumerated
list of (parameter name, distribution key) pairs. -/
def variable_keys : List (String × String) :=
  [("annual_income", "annual_income_dist"),
   ("home_price", "home_price_dist"),
   ("down_payment", "down_payment_dist"),
   ("mortgage_rate", "mortgage_rate_dist"),
   ("mortgage_term", "mortgage_term_dist"),
   ("property_tax_rate", "property_tax_rate_dist"),
   ("homeowner_insurance", "homeowner_insurance_dist"),
   ("maintenance_rate", "maintenance_rate_dist"),
   ("rent", "rent_dist"),
   ("rent_escalation_rate", "rent_escalation_rate_dist"),
   ("home_appreciation", "home_appreciation_dist"),
   ("investment_return", "investment_return_dist"),
   ("marginal_tax_rate", "marginal_tax_rate_dist"),
   ("inflation_rate", "inflation_rate_dist"),
   ("start_age", "start_age_dist"),
   ("end_age", "end_age_dist"),
   ("monthly_travel", "monthly_travel_dist"),
   ("monthly_groceries", "monthly_groceries_dist"),
   ("monthly_bills", "monthly_bills_dist"),
   ("monthly_healthcare", "monthly_healthcare_dist")]

/-- The `sampled_vals`-building loop of `run_single_simulation`
(montecarlo.py lines 330-346), folded over a list of key pairs. -/
def buildSampled (dp : DParams) : List (String × String) → PDict → Gen → PDict × Gen
  | [], d, g => (d, g)
  | (base_key, dist_key) :: rest, d, g =>
      let vg := sampleVal dp dist_key g
      buildSampled dp rest (Function.update d base_key vg.1) vg.2

/-- The Parameter Set `run_single_simulation` assembles (the `sampled_vals`
dictionary; unassigned names never being read, the empty dict is the
all-zero map). -/
def sampledVals (dp : DParams) (g : Gen) : PDict :=
  (buildSampled dp variable_keys (fun _ => 0) g).1

/-- Function `run_single_simulation` (montecarlo.py lines 293-351): one Monte Carlo
trial, returning the (own, rent) outcome pair and the advanced generator. -/
def run_single_simulation (dp : DParams) (g : Gen) : ℚ × ℚ × Gen :=
  let dg := buildSampled dp variable_keys (fun _ => 0) g
  let own_final := calculate_own_scenario dg.1
  let rent_final := calculate_rent_scenario dg.1
  (own_final, rent_final, dg.2)

/-- The trial loop of `run_monte_carlo` (montecarlo.py lines 392-395):
the own and rent outcome lists in trial-generation order, plus the
advanced generator. -/
def runTrials (dp : DParams) : ℕ → Gen → List ℚ × List ℚ × Gen
  | 0, g => ([], [], g)
  | n + 1, g =>
      let t := run_single_simulation dp g
      let rest := runTrials dp n t.2.2
      (t.1 :: rest.1, t.2.1 :: rest.2.1, rest.2.2)

/-- Python's in-place ascending `list.sort()`: on rationals a stable
ascending sort, i.e. insertion sort's output. -/
def pySort (l : List ℚ) : List ℚ := List.insertionSort (· ≤ ·) l

/-- Modelled from the spec: `statistics.mean` is a library function not
part of this repository; arithmetic mean of a list. -/
def statMean (l : List ℚ) : ℚ := l.sum / l.length

/-- Modelled from the spec: `statistics.median` is a library function not
part of this repository; middle element of the sorted list, or the average
of the two middle elements for even length. -/
def statMedian (l : List ℚ) : ℚ :=
  let s := pySort l
  let n := s.length
  if n % 2 = 1 then s.getD (n / 2) 0
  else (s.getD (n / 2 - 1) 0 + s.getD (n / 2) 0) / 2

/-- Function `percentile` (montecarlo.py lines 354-366): linear interpolation at
fractional rank `(len - 1) * p / 100` over a sorted list; `None` for the
empty list. -/
def percentile (sorted_list : List ℚ) (p : ℚ) : Option ℚ :=
  if sorted_list = [] then none
  else
    let index : ℚ := ((sorted_list.length - 1 : ℕ) : ℚ) * (p / 100)
    let lower := ⌊index⌋
    let upper := ⌈index⌉
    if lower = upper then some (sorted_list.getD lower.toNat 0)
    else
      let fraction := index - lower
      some (sorted_list.getD lower.toNat 0
        + (sorted_list.getD upper.toNat 0 - sorted_list.getD lower.toNat 0) * fraction)

/-- The result dictionary of `run_monte_carlo` (montecarlo.py lines 410-421). -/
structure MCResult where
  own_results : List ℚ
  rent_results : List ℚ
  mean_own : ℚ
  mean_rent : ℚ
  median_own : ℚ
  median_rent : ℚ
  pct_10_own : Option ℚ
  pct_90_own : Option ℚ
  pct_10_rent : Option ℚ
  pct_90_rent : Option ℚ
deriving DecidableEq

/-- Function `run_monte_carlo` (montecarlo.py lines 369-421): run the trials,
sort both outcome lists in place, compute summary statistics. -/
def run_monte_carlo (dp : DParams) (num_sims : ℕ) (g : Gen) : MCResult :=
  let t := runTrials dp num_sims g
  let own_values := pySort t.1
  let rent_values := pySort t.2.1
  { own_results := own_values
    rent_results := rent_values
    mean_own := if own_values = [] then 0 else statMean own_values
    mean_rent := if rent_values = [] then 0 else statMean rent_values
    median_own := if own_values = [] then 0 else statMedian own_values
    median_rent := if rent_values = [] then 0 else statMedian rent_values
    pct_10_own := percentile own_values 10
    pct_90_own := percentile own_values 90
    pct_10_rent := percentile rent_values 10
    pct_90_rent := percentile rent_values 90 }

/-- The mortgage-balance component of one loop iteration of
`calculate_own_scenario` (montecarlo.py lines 160-171), as a function of
the month index and balance alone. -/
def balStep (N : ℤ) (r pay : ℚ) (m : ℕ) (b : ℚ) : ℚ :=
  if (m : ℤ) < N ∧ 0 < b then
    let interest_portion := b * r
    let principal_portion := pay - interest_portion
    let principal_portion :=
      if principal_portion > b then b else principal_portion
    b - principal_portion
  else b

/-- The standard annuity payment, with a natural-number payment count. -/
def annuityPay (P r : ℚ) (n : ℕ) : ℚ := P * (r * (1 + r) ^ n) / ((1 + r) ^ n - 1)

/-- Closed form of the scheduled mortgage balance after `m` payments. -/
def balClosed (P r : ℚ) (n m : ℕ) : ℚ :=
  P * ((1 + r) ^ n - (1 + r) ^ m) / ((1 + r) ^ n - 1)

/-- A concrete all-zero Parameter Set, used by witnesses. -/
def zeroVals : PDict := fun _ => 0

/-- A concrete empty `dist_params` mapping, used by witnesses. -/
def emptyDP : DParams := fun _ => none

/-- Concrete Parameter Set for C1's counterexample: positive principal
(3), zero mortgage rate, 30-year term (360 payments). -/
def cv1 : PDict := fun k =>
  if k = "home_price" then 5
  else if k = "down_payment" then 2
  else if k = "mortgage_term" then 30
  else 0

/-- Concrete `dist_params` for C2's counterexample: `down_payment` is
sampled (consumes one draw per trial), `end_age` uses the unrecognized
kind fallback (mean 1/12, one simulated month). -/
def dpSortCex : DParams := fun k =>
  if k = "down_payment_dist" then
    some { dist_type := some "normal", mean := some 0, stdev := some 1,
           min := none, max := none, mode := none }
  else if k = "end_age_dist" then
    some { dist_type := some "fixed", mean := some (1/12), stdev := none,
           min := none, max := none, mode := none }
  else none

/-- Concrete Parameter Set refuting C3 as stated: zero mortgage rate,
principal 100, one scheduled payment, 12-month horizon. -/
def cv3 : PDict := fun k =>
  if k = "home_price" then 100
  else if k = "mortgage_term" then 1/12
  else if k = "end_age" then 1
  else 0

/-- Concrete Parameter Set for C3's witness: monthly rate 1/10, one
scheduled payment of principal 100, horizon 12 months. -/
def w3 : PDict := fun k =>
  if k = "home_price" then 100
  else if k = "mortgage_rate" then 120
  else if k = "mortgage_term" then 1/12
  else if k = "end_age" then 1
  else 0

/-- Concrete `dist_params` for C6's witness: only `annual_income` has a
distribution. -/
def dpW : DParams := fun k =>
  if k = "annual_income_dist" then
    some { dist_type := some "normal", mean := some 3, stdev := some 0,
           min := none, max := none, mode := none }
  else none

/-! ## Helper lemmas -/

/-- Truncation toward zero of a nonpositive rational is nonpositive. -/
theorem pyInt_nonpos {q : ℚ} (h : q ≤ 0) : pyInt q ≤ 0 := by
  have hnum : q.num ≤ 0 := by
    have h1 : (0 : ℚ) ≤ -q := by linarith
    have h2 : (0 : ℤ) ≤ (-q).num := Rat.num_nonneg.mpr h1
    rw [Rat.num_neg_eq_neg_num] at h2
    omega
  have hden : (0 : ℤ) ≤ (q.den : ℤ) := Int.ofNat_nonneg _
  have : 0 ≤ (-q.num).tdiv (q.den : ℤ) := Int.tdiv_nonneg (by omega) hden
  rw [Int.neg_tdiv] at this
  unfold pyInt
  omega

end OwnVsBuy

namespace OwnVsBuy

/-! ## Claim theorems -/

/-- C5: for every Parameter Set with `end_age ≤ start_age`, both
`calculate_own_scenario` and `calculate_rent_scenario` return 0.0: the
degenerate horizon `months < 1` is not an error but yields a zero
outcome. -/
theorem degenerate_horizon_zero (vals : PDict)
    (h : vals "end_age" ≤ vals "start_age") :
    calculate_own_scenario vals = 0 ∧ calculate_rent_scenario vals = 0 := by
  have hm : pyInt ((vals "end_age" - vals "start_age") * 12) < 1 := by
    have : (vals "end_age" - vals "start_age") * 12 ≤ 0 := by nlinarith
    have := pyInt_nonpos this
    omega
  constructor
  · show (calculate_own_scenarioS vals).1 = 0
    simp only [calculate_own_scenarioS, dget]
    rw [if_pos hm]
  · show (calculate_rent_scenarioS vals).1 = 0
    simp only [calculate_rent_scenarioS, dget]
    rw [if_pos hm]

/-- Witness for C5 at the all-zero Parameter Set. -/
theorem degenerate_horizon_zero_witness :
    zeroVals "end_age" ≤ zeroVals "start_age" ∧
      calculate_own_scenario zeroVals = 0 ∧ calculate_rent_scenario zeroVals = 0 :=
  ⟨le_refl _, degenerate_horizon_zero zeroVals (le_refl _)⟩

/-- C7: for every `dist_type` other than "normal", "lognormal" and
"triangular", `sample_distribution` returns the `mean` argument verbatim,
without error and without consuming entropy (generator unchanged). -/
theorem sample_distribution_fallback (dist_type : String)
    (mean stdev minimum maximum mode : ℚ) (g : Gen)
    (h1 : dist_type ≠ "normal") (h2 : dist_type ≠ "lognormal")
    (h3 : dist_type ≠ "triangular") :
    sample_distribution dist_type mean stdev minimum maximum mode g = (mean, g) := by
  unfold sample_distribution
  rw [if_neg h1, if_neg h2, if_neg h3]

/-- Witness for C7 at the unrecognized kind "uniform". -/
theorem sample_distribution_fallback_witness :
    sample_distribution "uniform" 5 1 2 3 4 ⟨[7, 8]⟩ = (5, ⟨[7, 8]⟩) :=
  sample_distribution_fallback "uniform" 5 1 2 3 4 ⟨[7, 8]⟩
    (by decide) (by decide) (by decide)

/-- C8: `run_monte_carlo` is deterministic in the random source: two runs
from equal generator states produce identical `own_results` and
`rent_results` sequences. -/
theorem run_monte_carlo_deterministic (dp : DParams) (num_sims : ℕ)
    (g1 g2 : Gen) (h : g1 = g2) :
    (run_monte_carlo dp num_sims g1).own_results
        = (run_monte_carlo dp num_sims g2).own_results ∧
      (run_monte_carlo dp num_sims g1).rent_results
        = (run_monte_carlo dp num_sims g2).rent_results := by
  subst h
  exact ⟨rfl, rfl⟩

/-- Witness for C8 at the empty distribution map with one trial. -/
theorem run_monte_carlo_deterministic_witness :
    (run_monte_carlo emptyDP 1 ⟨[]⟩).own_results
        = (run_monte_carlo emptyDP 1 ⟨[]⟩).own_results ∧
      (run_monte_carlo emptyDP 1 ⟨[]⟩).rent_results
        = (run_monte_carlo emptyDP 1 ⟨[]⟩).rent_results :=
  run_monte_carlo_deterministic emptyDP 1 ⟨[]⟩ ⟨[]⟩ rfl

/-- C9: the scenario evaluators never mutate their input `vals` mapping:
in state-passing form, the dictionary each returns is the one passed in. -/
theorem evaluators_preserve_vals (vals : PDict) :
    (calculate_own_scenarioS vals).2 = vals ∧
      (calculate_rent_scenarioS vals).2 = vals := by
  constructor
  · simp only [calculate_own_scenarioS, dget]
    split <;> rfl
  · simp only [calculate_rent_scenarioS, dget]
    split <;> rfl

/-- In a `(· ≤ ·)`-sorted list every element is at most the last one. -/
theorem sorted_le_getLast :
    ∀ (l : List ℚ) (h : l ≠ []), l.Sorted (· ≤ ·) → ∀ x ∈ l, x ≤ l.getLast h := by
  intro l
  induction l with
  | nil => intro h; exact absurd rfl h
  | cons a t ih =>
    intro h hs x hx
    rcases List.mem_cons.mp hx with rfl | hxt
    · by_cases ht : t = []
      · subst ht; simp
      · rw [List.getLast_cons ht]
        exact le_trans (le_refl x) <|
          (List.sorted_cons.mp hs).1 _ (List.getLast_mem ht)
    · by_cases ht : t = []
      · subst ht; simp at hxt
      · rw [List.getLast_cons ht]
        exact ih ht (List.sorted_cons.mp hs).2 x hxt

/-- C4: the `percentile` function interpolates (`percentile [10,20,30,40] 50
= 25`), returns the first element (the minimum) at `p = 0` and the last
element (the maximum) at `p = 100` of any sorted non-empty list, and
returns `None` on the empty list. -/
theorem percentile_spec :
    percentile [10, 20, 30, 40] 50 = some 25 ∧
    (∀ (l : List ℚ) (h : l ≠ []), l.Sorted (· ≤ ·) →
      percentile l 0 = some (l.head h) ∧ (∀ x ∈ l, l.head h ≤ x) ∧
      percentile l 100 = some (l.getLast h) ∧ (∀ x ∈ l, x ≤ l.getLast h)) ∧
    (∀ p : ℚ, percentile [] p = none) := by
  refine ⟨by with_unfolding_all decide, ?_, fun p => rfl⟩
  intro l h hs
  obtain ⟨a, t, rfl⟩ := List.exists_cons_of_ne_nil h
  refine ⟨?_, ?_, ?_, sorted_le_getLast _ h hs⟩
  · simp [percentile]
  · intro x hx
    rcases List.mem_cons.mp hx with rfl | hxt
    · simp
    · exact (List.sorted_cons.mp hs).1 x hxt
  · have hlen : ((a :: t).length - 1 : ℕ) = t.length := by simp
    simp only [percentile, if_neg h, hlen]
    norm_num [Int.floor_natCast, Int.ceil_natCast]
    rw [List.getLast_eq_getElem]
    simp [List.getD_eq_getElem?_getD, List.getElem?_eq_getElem]

/-- Witness for C4 on the sorted two-element list `[1, 2]`. -/
theorem percentile_spec_witness :
    percentile [1, 2] 0 = some 1 ∧ percentile [1, 2] 100 = some 2 :=
  ⟨(percentile_spec.2.1 [1, 2] (by decide) (by decide)).1,
   (percentile_spec.2.1 [1, 2] (by decide) (by decide)).2.2.1⟩

/-- C1 counterexample: with principal 3 > 0 and a zero monthly rate, the
payment used by the simulation is 0, not
`principal / number_of_payments = 3 / 360`. -/
theorem zero_rate_payment_cex :
    ownPrincipal cv1 = 3 ∧ (0 : ℚ) < 3 ∧ ownMonthlyRate cv1 = 0 ∧
      ownTermMonths cv1 = 360 ∧ ownPayment cv1 = 0 ∧
      (0 : ℚ) ≠ 3 / 360 := by
  with_unfolding_all decide

/-- C1 amended: for every Parameter Set with a zero monthly mortgage rate
the payment used by the simulation is 0.0 (not `principal /
number_of_payments`), and for zero principal the payment is 0. -/
theorem zero_rate_payment (vals : PDict) :
    (ownMonthlyRate vals = 0 → ownPayment vals = 0) ∧
      (ownPrincipal vals = 0 → ownPayment vals = 0) := by
  constructor
  · intro h
    simp [ownPayment, mortgagePayment, h]
  · intro h
    simp [ownPayment, mortgagePayment, h]

/-- Witness for C1 (amended) at the all-zero Parameter Set. -/
theorem zero_rate_payment_witness :
    ownMonthlyRate zeroVals = 0 ∧ ownPayment zeroVals = 0 :=
  ⟨by with_unfolding_all decide,
   (zero_rate_payment zeroVals).1 (by with_unfolding_all decide)⟩

/-- C2 counterexample: with entropy stream `[1, 2]` the trial outcomes in
generation order are `[-1, -2]`, but `run_monte_carlo` returns
`own_results = [-2, -1]`: the 0-th element of `own_results` is not the
outcome of the 0-th trial. -/
theorem results_generation_order_cex :
    (runTrials dpSortCex 2 ⟨[1, 2]⟩).1 = [-1, -2] ∧
      (run_monte_carlo dpSortCex 2 ⟨[1, 2]⟩).own_results = [-2, -1] ∧
      ([-2, -1] : List ℚ) ≠ [-1, -2] := by
  with_unfolding_all decide

/-- C2 amended: `own_results` and `rent_results` are the per-trial
outcomes sorted ascending (the generation-order lists are sorted in place
before being returned), hence permutations of the generation-order
outcomes. -/
theorem results_sorted (dp : DParams) (n : ℕ) (g : Gen) :
    (run_monte_carlo dp n g).own_results = pySort (runTrials dp n g).1 ∧
      (run_monte_carlo dp n g).rent_results = pySort (runTrials dp n g).2.1 ∧
      (run_monte_carlo dp n g).own_results.Perm (runTrials dp n g).1 ∧
      (run_monte_carlo dp n g).rent_results.Perm (runTrials dp n g).2.1 ∧
      (run_monte_carlo dp n g).own_results.Sorted (· ≤ ·) ∧
      (run_monte_carlo dp n g).rent_results.Sorted (· ≤ ·) :=
  ⟨rfl, rfl, List.perm_insertionSort _ _, List.perm_insertionSort _ _,
   List.sorted_insertionSort _ _, List.sorted_insertionSort _ _⟩

/-- C6 counterexample: the fixed enumerated parameter list has 20 entries,
not 18. -/
theorem variable_keys_count_cex : variable_keys.length = 20 ∧ (20 : ℕ) ≠ 18 := by
  decide

/-- A key not among the base names of a pair list is left untouched by the
`sampled_vals`-building fold. -/
theorem buildSampled_not_mem (dp : DParams) :
    ∀ (l : List (String × String)) (d : PDict) (g : Gen) (b : String),
      b ∉ l.map Prod.fst → (buildSampled dp l d g).1 b = d b := by
  intro l
  induction l with
  | nil => intro d g b _; rfl
  | cons p rest ih =>
    intro d g b hb
    obtain ⟨b0, dk0⟩ := p
    simp only [List.map_cons, List.mem_cons, not_or] at hb
    simp only [buildSampled]
    rw [ih _ _ _ hb.2]
    exact Function.update_noteq hb.1 _ _

/-- Each base key of a pair list with pairwise-distinct base names
receives the value sampled for its distribution key at the generator state
current when processed. -/
theorem buildSampled_mem (dp : DParams) :
    ∀ (l : List (String × String)) (d : PDict) (g : Gen) (b dk : String),
      (l.map Prod.fst).Nodup → (b, dk) ∈ l →
      ∃ g', (buildSampled dp l d g).1 b = (sampleVal dp dk g').1 := by
  intro l
  induction l with
  | nil => intro d g b dk _ hmem; simp at hmem
  | cons p rest ih =>
    intro d g b dk hnd hmem
    obtain ⟨b0, dk0⟩ := p
    simp only [List.map_cons, List.nodup_cons] at hnd
    rcases List.mem_cons.mp hmem with heq | hmem'
    · injection heq with hb hdk
      subst hb; subst hdk
      refine ⟨g, ?_⟩
      simp only [buildSampled]
      rw [buildSampled_not_mem dp rest _ _ _ hnd.1]
      exact Function.update_same _ _ _
    · exact ih _ _ b dk hnd.2 hmem'

/-- C6 amended: `run_single_simulation` assembles its Parameter Set over
exactly the fixed enumerated list of 20 parameter names; a name whose
`_dist` key is present is assigned a value sampled via
`sample_distribution`, a name whose key is absent is silently assigned
0.0. -/
theorem trial_parameter_assembly (dp : DParams) (g : Gen) :
    variable_keys.length = 20 ∧
    ∀ b dk, (b, dk) ∈ variable_keys →
      (dp dk = none → sampledVals dp g b = 0) ∧
      (∀ d, dp dk = some d → ∃ g', sampledVals dp g b = (sampleOne d g').1) := by
  refine ⟨rfl, ?_⟩
  intro b dk hmem
  have hnd : (variable_keys.map Prod.fst).Nodup := by decide
  constructor
  · intro hnone
    obtain ⟨g', hg⟩ := buildSampled_mem dp variable_keys (fun _ => 0) g b dk hnd hmem
    unfold sampledVals
    rw [hg]
    simp [sampleVal, hnone]
  · intro d hd
    obtain ⟨g', hg⟩ := buildSampled_mem dp variable_keys (fun _ => 0) g b dk hnd hmem
    refine ⟨g', ?_⟩
    unfold sampledVals
    rw [hg]
    simp [sampleVal, hd]

/-- Witness for C6 (amended): a parameter without a `_dist` key gets 0.0. -/
theorem trial_parameter_assembly_witness :
    sampledVals dpW ⟨[]⟩ "home_price" = 0 :=
  ((trial_parameter_assembly dpW ⟨[]⟩).2 "home_price" "home_price_dist"
      (by decide)).1 (by with_unfolding_all decide)

/-- C10: with zero trials, `run_monte_carlo` returns empty outcome lists,
zero means and medians, and absent (`none`) percentile fields, without
error. -/
theorem run_monte_carlo_zero_trials (dp : DParams) (g : Gen) :
    (run_monte_carlo dp 0 g).own_results = [] ∧
      (run_monte_carlo dp 0 g).rent_results = [] ∧
      (run_monte_carlo dp 0 g).mean_own = 0 ∧
      (run_monte_carlo dp 0 g).mean_rent = 0 ∧
      (run_monte_carlo dp 0 g).median_own = 0 ∧
      (run_monte_carlo dp 0 g).median_rent = 0 ∧
      (run_monte_carlo dp 0 g).pct_10_own = none ∧
      (run_monte_carlo dp 0 g).pct_90_own = none ∧
      (run_monte_carlo dp 0 g).pct_10_rent = none ∧
      (run_monte_carlo dp 0 g).pct_90_rent = none :=
  ⟨rfl, rfl, rfl, rfl, rfl, rfl, rfl, rfl, rfl, rfl⟩

end OwnVsBuy

namespace OwnVsBuy

/-! ## Mortgage amortization (C3) -/

theorem denom_pos {r : ℚ} {n : ℕ} (hr : 0 < r) (hn : 1 ≤ n) :
    0 < (1 + r) ^ n - 1 := by
  have h1 : (1 : ℚ) < 1 + r := by linarith
  have := one_lt_pow₀ h1 (by omega : n ≠ 0)
  linarith

theorem balClosed_zero {P r : ℚ} {n : ℕ} (hr : 0 < r) (hn : 1 ≤ n) :
    balClosed P r n 0 = P := by
  have hD := (denom_pos hr hn).ne'
  unfold balClosed
  rw [pow_zero, mul_div_assoc, div_self hD, mul_one]

theorem balClosed_last {P r : ℚ} {n : ℕ} : balClosed P r n n = 0 := by
  simp [balClosed]

theorem balClosed_nonneg {P r : ℚ} {n m : ℕ} (hr : 0 < r) (hn : 1 ≤ n)
    (hP : 0 ≤ P) (hm : m ≤ n) : 0 ≤ balClosed P r n m := by
  have h1 : (1 : ℚ) ≤ 1 + r := by linarith
  have hpow := pow_le_pow_right₀ h1 hm
  exact div_nonneg (mul_nonneg hP (by linarith)) (denom_pos hr hn).le

theorem balClosed_pos {P r : ℚ} {n m : ℕ} (hr : 0 < r) (hn : 1 ≤ n)
    (hP : 0 < P) (hm : m < n) : 0 < balClosed P r n m := by
  have hpow := pow_lt_pow_right₀ (by linarith : (1 : ℚ) < 1 + r) hm
  exact div_pos (mul_pos hP (by linarith)) (denom_pos hr hn)

theorem balClosed_step {P r : ℚ} {n : ℕ} (hr : 0 < r) (hn : 1 ≤ n) (m : ℕ) :
    balClosed P r n m * (1 + r) - annuityPay P r n = balClosed P r n (m + 1) := by
  have hD := (denom_pos hr hn).ne'
  unfold balClosed annuityPay
  field_simp
  ring

theorem balClosed_mono {P r : ℚ} {n : ℕ} (hr : 0 < r) (hn : 1 ≤ n)
    (hP : 0 ≤ P) (m : ℕ) : balClosed P r n (m + 1) ≤ balClosed P r n m := by
  have h1 : (1 : ℚ) ≤ 1 + r := by linarith
  have hpow := pow_le_pow_right₀ h1 (by omega : m ≤ m + 1)
  unfold balClosed
  have hnum : P * ((1 + r) ^ n - (1 + r) ^ (m + 1))
      ≤ P * ((1 + r) ^ n - (1 + r) ^ m) :=
    mul_le_mul_of_nonneg_left (by linarith) hP
  exact (div_le_div_iff_of_pos_right (denom_pos hr hn)).mpr hnum

theorem balStep_closed_eq {P r : ℚ} {n : ℕ} (hr : 0 < r) (hn : 1 ≤ n)
    (hP : 0 ≤ P) (m : ℕ) (hm : m < n) :
    balStep (n : ℤ) r (annuityPay P r n) m (balClosed P r n m)
      = balClosed P r n (m + 1) := by
  rcases eq_or_lt_of_le hP with hP0 | hPpos
  · simp [balStep, balClosed, annuityPay, ← hP0]
  · have hb := balClosed_pos hr hn hPpos hm
    have hb1 := balClosed_nonneg hr hn hP (show m + 1 ≤ n by omega)
    have hstep := balClosed_step (P := P) hr hn m
    have hexp : balClosed P r n m * (1 + r)
        = balClosed P r n m + balClosed P r n m * r := by ring
    unfold balStep
    rw [if_pos ⟨by exact_mod_cast hm, hb⟩]
    have hclamp : ¬ (annuityPay P r n - balClosed P r n m * r > balClosed P r n m) := by
      rw [hexp] at hstep
      linarith
    simp only []
    rw [if_neg hclamp]
    rw [hexp] at hstep
    linarith

theorem stepOwn_mortgage_balance (c : OwnConsts) (m : ℕ) (s : OwnState) :
    (stepOwn c m s).mortgage_balance
      = balStep c.mortgage_term_months c.monthly_interest_rate
          c.mortgage_payment m s.mortgage_balance := by
  simp only [stepOwn, balStep]
  split <;> (split <;> rfl)

theorem ownBalance_zero (vals : PDict) : ownBalance vals 0 = ownPrincipal vals := rfl

theorem ownBalance_succ (vals : PDict) (k : ℕ) :
    ownBalance vals (k + 1)
      = balStep (ownTermMonths vals) (ownMonthlyRate vals) (ownPayment vals) k
          (ownBalance vals k) := by
  unfold ownBalance
  rw [List.range_succ, List.foldl_append, List.foldl_cons, List.foldl_nil]
  rw [stepOwn_mortgage_balance]
  rfl

theorem ownPrincipal_nonneg (vals : PDict) : 0 ≤ ownPrincipal vals := by
  unfold ownPrincipal
  by_cases h : vals "home_price" - vals "down_payment" < 0
  · simp [h]
  · simp only [h, if_false]
    linarith [not_lt.mp h]

theorem ownPayment_eq_annuity (vals : PDict) (hr : 0 < ownMonthlyRate vals)
    (hn : 1 ≤ ownTermMonths vals) :
    ownPayment vals
      = annuityPay (ownPrincipal vals) (ownMonthlyRate vals)
          (ownTermMonths vals).toNat := by
  have hNcast : ((ownTermMonths vals).toNat : ℤ) = ownTermMonths vals :=
    Int.toNat_of_nonneg (by omega)
  unfold ownPayment mortgagePayment annuityPay
  by_cases hP : 0 < ownPrincipal vals
  · rw [if_pos ⟨hP, hr⟩]
    conv_lhs => rw [← hNcast]
    rw [zpow_natCast]
  · have h0 : ownPrincipal vals = 0 :=
      le_antisymm (not_lt.mp hP) (ownPrincipal_nonneg vals)
    rw [if_neg (by tauto), h0]
    simp

theorem ownBalance_closed (vals : PDict) (hr : 0 < ownMonthlyRate vals)
    (hn : 1 ≤ ownTermMonths vals) :
    ∀ m, m ≤ (ownTermMonths vals).toNat →
      ownBalance vals m
        = balClosed (ownPrincipal vals) (ownMonthlyRate vals)
            (ownTermMonths vals).toNat m := by
  have hNcast : ((ownTermMonths vals).toNat : ℤ) = ownTermMonths vals :=
    Int.toNat_of_nonneg (by omega)
  have hn' : 1 ≤ (ownTermMonths vals).toNat := by omega
  intro m
  induction m with
  | zero =>
    intro _
    rw [ownBalance_zero, balClosed_zero hr hn']
  | succ m ih =>
    intro hm1
    rw [ownBalance_succ, ih (by omega), ownPayment_eq_annuity vals hr hn, ← hNcast]
    exact balStep_closed_eq hr hn' (ownPrincipal_nonneg vals) m (by omega)

theorem ownBalance_zero_after (vals : PDict) (hr : 0 < ownMonthlyRate vals)
    (hn : 1 ≤ ownTermMonths vals) :
    ∀ k, (ownTermMonths vals).toNat ≤ k → ownBalance vals k = 0 := by
  have hn' : 1 ≤ (ownTermMonths vals).toNat := by omega
  intro k
  induction k with
  | zero => intro h; omega
  | succ k ih =>
    intro h
    rcases Nat.lt_or_ge k (ownTermMonths vals).toNat with hk | hk
    · have hkn : k + 1 = (ownTermMonths vals).toNat := by omega
      rw [hkn, ownBalance_closed vals hr hn _ le_rfl, balClosed_last]
    · rw [ownBalance_succ, ih hk]
      unfold balStep
      rw [if_neg (by simp)]

/-- C3 counterexample: with a zero monthly rate, principal 100 and one
scheduled payment (term covered by the 12-month horizon), the mortgage
balance after the final scheduled payment is 100, not 0. -/
theorem mortgage_balance_cex :
    ownTermMonths cv3 = 1 ∧ ownTermMonths cv3 ≤ ownMonths cv3 ∧
      ownPrincipal cv3 = 100 ∧ ownMonthlyRate cv3 = 0 ∧
      ownBalance cv3 1 = 100 ∧ (100 : ℚ) ≠ 0 := by
  with_unfolding_all decide

/-- C3 amended: for every Parameter Set whose horizon covers the full
amortization period, with a positive monthly rate and at least one
scheduled payment, the mortgage balance is monotonically non-increasing,
never negative, and exactly 0 after the final scheduled payment. -/
theorem mortgage_balance_amortizes (vals : PDict)
    (hhor : ownTermMonths vals ≤ ownMonths vals)
    (hr : 0 < ownMonthlyRate vals) (hn : 1 ≤ ownTermMonths vals) :
    (∀ k, ownBalance vals (k + 1) ≤ ownBalance vals k) ∧
      (∀ k, 0 ≤ ownBalance vals k) ∧
      ownBalance vals (ownTermMonths vals).toNat = 0 := by
  have hn' : 1 ≤ (ownTermMonths vals).toNat := by omega
  have hP := ownPrincipal_nonneg vals
  refine ⟨?_, ?_, ?_⟩
  · intro k
    rcases Nat.lt_or_ge k (ownTermMonths vals).toNat with hk | hk
    · rw [ownBalance_closed vals hr hn k (by omega),
        ownBalance_closed vals hr hn (k + 1) (by omega)]
      exact balClosed_mono hr hn' hP k
    · rw [ownBalance_zero_after vals hr hn k hk,
        ownBalance_zero_after vals hr hn (k + 1) (by omega)]
  · intro k
    rcases le_or_lt k (ownTermMonths vals).toNat with hk | hk
    · rw [ownBalance_closed vals hr hn k hk]
      exact balClosed_nonneg hr hn' hP hk
    · rw [ownBalance_zero_after vals hr hn k (by omega)]
  · rw [ownBalance_closed vals hr hn _ le_rfl, balClosed_last]

/-- Witness for C3 (amended) at a one-payment mortgage with monthly rate
1/10. -/
theorem mortgage_balance_amortizes_witness :
    0 < ownMonthlyRate w3 ∧ ownBalance w3 (ownTermMonths w3).toNat = 0 :=
  ⟨by with_unfolding_all decide,
   (mortgage_balance_amortizes w3 (by with_unfolding_all decide)
      (by with_unfolding_all decide) (by with_unfolding_all decide)).2.2⟩

end OwnVsBuy
